import Mathlib

/-!
# rai!connect — verification of the specification against the source

This development shallowly embeds the rai!connect frontend store
(`src/lib/stores/app.svelte.ts`, `src/lib/types/index.ts`) and — for the
parts of the system that live in the Rust backend and are absent from the
frontend sources — a model of the Bancho stream splicer taken from the
specification (§4.6).  All definitions are executable; theorems settle the
frozen claims about counters, the splicer, configuration defaults, the
control API surface, the connection lifecycle, and error atomicity of the
store actions.
-/

set_option maxRecDepth 4000

namespace RaiConnect

/-! ## Data model (`src/lib/types/index.ts`) -/

/-- `ConnectionStatus` from `src/lib/types/index.ts`:
`"disconnected" | "connecting" | "connected" | "error"`. -/
inductive ConnectionStatus where
  | disconnected
  | connecting
  | connected
  | error
deriving DecidableEq, Repr

/-- `ProxyConfig` from `src/lib/types/index.ts`. -/
structure ProxyConfig where
  http_port : Nat
  inject_supporter : Bool
  api_base_url : String
  direct_base_url : String
deriving DecidableEq, Repr

/-- `AppConfig` from `src/lib/types/index.ts`. -/
structure AppConfig where
  osu_path : Option String
  start_at_boot : Bool
  minimize_to_tray : Bool
  start_minimized : Bool
  debug_logging : Bool
  proxy : ProxyConfig
deriving DecidableEq, Repr

/-- `LogEntry` from `src/lib/types/index.ts`. -/
structure LogEntry where
  timestamp : String
  level : String
  target : String
  message : String
deriving DecidableEq, Repr

/-- `AppState` from `src/lib/types/index.ts`. -/
structure AppState where
  status : ConnectionStatus
  osu_running : Bool
  requests_proxied : Nat
  beatmaps_downloaded : Nat
  last_error : Option String
deriving DecidableEq, Repr

/-- `defaultConfig` from `src/lib/types/index.ts`. -/
def defaultConfig : AppConfig :=
  { osu_path := none
    start_at_boot := false
    minimize_to_tray := true
    start_minimized := false
    debug_logging := false
    proxy :=
      { http_port := 80
        inject_supporter := false
        api_base_url := "https://api.rai.moe"
        direct_base_url := "https://direct.rai.moe" } }

/-- `defaultState` from `src/lib/types/index.ts`. -/
def defaultState : AppState :=
  { status := .disconnected
    osu_running := false
    requests_proxied := 0
    beatmaps_downloaded := 0
    last_error := none }

/-! ## The reactive store (`src/lib/stores/app.svelte.ts`)

The store object wraps the config, the app state, the fetched logs and a
loading flag.  Each async action is embedded as a pure state transformer
parametrised by the outcome of the backend `invoke` it performs (`ok` for
success, plus the data a failing invocation would stringify into
`last_error`). -/

/-- The `store` object of `src/lib/stores/app.svelte.ts`. -/
structure Store where
  config : AppConfig
  appState : AppState
  logs : List LogEntry
  isLoading : Bool
deriving DecidableEq, Repr

/-- The store at module initialisation. -/
def initialStore : Store :=
  { config := defaultConfig, appState := defaultState, logs := [], isLoading := false }

/-- `canConnect()` of the store: not connected, not connecting, and
`config.osu_path !== null`. -/
def canConnect (s : Store) : Prop :=
  s.appState.status ≠ .connected ∧ s.appState.status ≠ .connecting ∧
    s.config.osu_path ≠ none

instance (s : Store) : Decidable (canConnect s) :=
  inferInstanceAs (Decidable (_ ∧ _ ∧ _))

/-- `connect()`: guarded by `canConnect`; sets loading, status `connecting`,
clears `last_error`; on backend success status becomes `connected`, on
failure status becomes `error` and `last_error` records the failure; the
`finally` block clears the loading flag. -/
def connect (ok : Bool) (err : String) (s : Store) : Store :=
  if canConnect s then
    let m : Store :=
      { s with isLoading := true,
               appState := { s.appState with status := .connecting, last_error := none } }
    let r : Store :=
      if ok then { m with appState := { m.appState with status := .connected } }
      else { m with appState := { m.appState with status := .error, last_error := some err } }
    { r with isLoading := false }
  else s

/-- The backend commands a call to `connect()` invokes from store state
`s` — the single Tauri command `connect` when the guard passes, nothing
otherwise. -/
def connectCmds (s : Store) : List String :=
  if canConnect s then ["connect"] else []

/-- `startProxy()`: same body as `connect()` but guarded only by
`isConnected() || isConnecting()` and invoking `start_proxy`. -/
def startProxy (ok : Bool) (err : String) (s : Store) : Store :=
  if s.appState.status = .connected ∨ s.appState.status = .connecting then s
  else
    let m : Store :=
      { s with isLoading := true,
               appState := { s.appState with status := .connecting, last_error := none } }
    let r : Store :=
      if ok then { m with appState := { m.appState with status := .connected } }
      else { m with appState := { m.appState with status := .error, last_error := some err } }
    { r with isLoading := false }

/-- `disconnect()`: guarded by `isConnected()`; on backend success sets
status `disconnected` and resets `requests_proxied` and
`beatmaps_downloaded` to `0`; on failure leaves them and the status alone
and records `last_error`; the `finally` block clears the loading flag. -/
def disconnect (ok : Bool) (err : String) (s : Store) : Store :=
  if s.appState.status = .connected then
    let m : Store := { s with isLoading := true }
    let r : Store :=
      if ok then
        { m with appState :=
          { m.appState with
              status := .disconnected
              requests_proxied := 0
              beatmaps_downloaded := 0 } }
      else { m with appState := { m.appState with last_error := some err } }
    { r with isLoading := false }
  else s

/-- `saveConfig(newConfig)`: invokes `set_config`; on success the store's
config becomes `newConfig`; on failure the store is untouched and the error
is rethrown (second component `true` = exception propagated). -/
def saveConfig (ok : Bool) (newConfig : AppConfig) (s : Store) : Store × Bool :=
  if ok then ({ s with config := newConfig }, false) else (s, true)

/-- The key/value pairs `updateConfig` can be called with, one constructor
per `AppConfig` field. -/
inductive ConfigUpdate where
  | osuPath (v : Option String)
  | startAtBoot (v : Bool)
  | minimizeToTray (v : Bool)
  | startMinimized (v : Bool)
  | debugLogging (v : Bool)
  | proxy (v : ProxyConfig)
deriving DecidableEq

/-- The spread `{ ...config, [key]: value }` of `updateConfig`. -/
def applyUpdate : ConfigUpdate → AppConfig → AppConfig
  | .osuPath v, c => { c with osu_path := v }
  | .startAtBoot v, c => { c with start_at_boot := v }
  | .minimizeToTray v, c => { c with minimize_to_tray := v }
  | .startMinimized v, c => { c with start_minimized := v }
  | .debugLogging v, c => { c with debug_logging := v }
  | .proxy v, c => { c with proxy := v }

/-- `updateConfig(key, value)` — builds the spread copy and delegates to
`saveConfig`. -/
def updateConfig (ok : Bool) (u : ConfigUpdate) (s : Store) : Store × Bool :=
  saveConfig ok (applyUpdate u s.config) s

/-- The `AppConfig` field names, used to state key-locality of
`updateConfig`. -/
inductive ConfigKey where
  | osuPath | startAtBoot | minimizeToTray | startMinimized | debugLogging | proxy
deriving DecidableEq

/-- The key a `ConfigUpdate` writes. -/
def keyOf : ConfigUpdate → ConfigKey
  | .osuPath _ => .osuPath
  | .startAtBoot _ => .startAtBoot
  | .minimizeToTray _ => .minimizeToTray
  | .startMinimized _ => .startMinimized
  | .debugLogging _ => .debugLogging
  | .proxy _ => .proxy

/-- Two configs agree on the field named `k`. -/
def fieldEq (k : ConfigKey) (c c' : AppConfig) : Prop :=
  match k with
  | .osuPath => c.osu_path = c'.osu_path
  | .startAtBoot => c.start_at_boot = c'.start_at_boot
  | .minimizeToTray => c.minimize_to_tray = c'.minimize_to_tray
  | .startMinimized => c.start_minimized = c'.start_minimized
  | .debugLogging => c.debug_logging = c'.debug_logging
  | .proxy => c.proxy = c'.proxy

instance (k : ConfigKey) (c c' : AppConfig) : Decidable (fieldEq k c c') := by
  unfold fieldEq; cases k <;> infer_instance

/-- `refreshStatus()`: on success replaces the whole `appState` with the
backend's answer; a failure only logs. -/
def refreshStatus (res : Option AppState) (s : Store) : Store :=
  match res with
  | some st => { s with appState := st }
  | none => s

/-! ## The backend command surface invoked by the store

One entry per `invoke("...")` call site in `src/lib/stores/app.svelte.ts`,
in source order, together with the Tauri argument name `getLogs` passes. -/

/-- The Tauri commands the store module invokes. -/
def storeInvokedCommands : List String :=
  ["load_saved_config", "set_config", "detect_osu", "validate_osu_path",
   "start_proxy", "connect", "disconnect", "get_status", "is_osu_running_cmd",
   "get_logs", "clear_logs"]

/-- The operation names of the spec's control API (§6). -/
def specControlOps : List String :=
  ["start", "stop", "status", "getCounters", "getLogs", "clearLogs"]

/-- The argument name `getLogs()` passes to the backend:
`invoke("get_logs", \x7b count: null \x7d)`. -/
def getLogsArgName : String := "count"

/-! ## Connection-lifecycle events

A control-plane call from the UI: `connect()`, `startProxy()` or
`disconnect()`, tagged with the outcome of its backend invocation. -/

/-- A UI control call together with its backend outcome. -/
inductive CtlEv where
  | connectEv (ok : Bool) (err : String)
  | startProxyEv (ok : Bool) (err : String)
  | disconnectEv (ok : Bool) (err : String)
deriving DecidableEq

/-- Run one control call on the store. -/
def runCtl : CtlEv → Store → Store
  | .connectEv ok err, s => connect ok err s
  | .startProxyEv ok err, s => startProxy ok err s
  | .disconnectEv ok err, s => disconnect ok err s

/-- The successive values assigned to `status` during one control call
(empty when the guard short-circuits or, for a failing `disconnect`, when
the call never writes `status`). -/
def ctlTrace : CtlEv → Store → List ConnectionStatus
  | .connectEv ok _, s =>
      if canConnect s then [.connecting, if ok then .connected else .error] else []
  | .startProxyEv ok _, s =>
      if s.appState.status = .connected ∨ s.appState.status = .connecting then []
      else [.connecting, if ok then .connected else .error]
  | .disconnectEv ok _, s =>
      if s.appState.status = .connected then
        (if ok then [.disconnected] else []) else []

/-- All `status` assignments across a sequence of control calls. -/
def statusWrites : List CtlEv → Store → List ConnectionStatus
  | [], _ => []
  | e :: evs, s => ctlTrace e s ++ statusWrites evs (runCtl e s)

/-- The full trajectory of the `status` field: its initial value followed by
every value it is assigned. -/
def statusTraj (evs : List CtlEv) (s : Store) : List ConnectionStatus :=
  s.appState.status :: statusWrites evs s

/-- The status transitions the store code actually performs. -/
def codeEdges : List (ConnectionStatus × ConnectionStatus) :=
  [(.disconnected, .connecting), (.error, .connecting),
   (.connecting, .connected), (.connecting, .error),
   (.connected, .disconnected)]

/-- The transitions claimed by the spec lifecycle, restricted to the four
statuses the code has (`Stopped` = `disconnected`, `Starting` =
`connecting`, `Running` = `connected`, `Failed` = `error`; the spec's
`Stopping` state has no counterpart, so `Running → Stopping → Stopped` is
unrepresentable and `Running → Stopped` is *not* among these edges). -/
def specEdges : List (ConnectionStatus × ConnectionStatus) :=
  [(.disconnected, .connecting), (.connecting, .connected),
   (.connecting, .error), (.connected, .error)]

/-- A status either stays put or moves along an edge of `es`. -/
def stepAlong (es : List (ConnectionStatus × ConnectionStatus))
    (a b : ConnectionStatus) : Prop :=
  a = b ∨ (a, b) ∈ es

instance (es : List (ConnectionStatus × ConnectionStatus)) (a b : ConnectionStatus) :
    Decidable (stepAlong es a b) :=
  inferInstanceAs (Decidable (_ ∨ _))

/-! ## Combined system for counter observation

The backend proxy (Rust side, not among the frontend sources) owns the real
counters; the UI observes them through `get_status`.

Modelled from the spec: the backend counters `requestsProxied`,
`beatmapsDownloaded` and `banchoPacketsInjected` are atomic scalars
incremented with fetch-add on the data path (§3 Counters, §5 "Counter
increments use atomic fetch-add"), and `status()` reports them to the
control plane. -/

/-- Modelled from the spec: the backend's monotonic counters (the Rust
proxy core is not among the frontend sources). -/
structure Backend where
  requests : Nat
  beatmaps : Nat
  banchoInjected : Nat
deriving DecidableEq, Repr

/-- Backend counters plus the frontend store. -/
structure Sys where
  backend : Backend
  front : Store
deriving DecidableEq, Repr

/-- An observable step of the combined system: a backend fetch-add on one
of the three counters, or a UI control-plane call (`connect`, `startProxy`,
`refreshStatus`, `disconnect`).  A successful `refreshStatus` copies the
backend counters into the frontend `appState` (the backend's answer to
`get_status`); its remaining fields are the backend's current status
report, left free here. -/
inductive SysEv where
  | incRequests
  | incBeatmaps
  | incInjected
  | connectEv (ok : Bool) (err : String)
  | startProxyEv (ok : Bool) (err : String)
  | disconnectEv (ok : Bool) (err : String)
  | refreshStatusEv (ok : Bool) (st : ConnectionStatus) (run : Bool) (le : Option String)
deriving DecidableEq

/-- One step of the combined system. -/
def sysStep : SysEv → Sys → Sys
  | .incRequests, y =>
      { y with backend := { y.backend with requests := y.backend.requests + 1 } }
  | .incBeatmaps, y =>
      { y with backend := { y.backend with beatmaps := y.backend.beatmaps + 1 } }
  | .incInjected, y =>
      { y with backend := { y.backend with banchoInjected := y.backend.banchoInjected + 1 } }
  | .connectEv ok err, y => { y with front := connect ok err y.front }
  | .startProxyEv ok err, y => { y with front := startProxy ok err y.front }
  | .disconnectEv ok err, y => { y with front := disconnect ok err y.front }
  | .refreshStatusEv ok st run le, y =>
      if ok then
        { y with front :=
          { y.front with appState :=
            { status := st
              osu_running := run
              requests_proxied := y.backend.requests
              beatmaps_downloaded := y.backend.beatmaps
              last_error := le } } }
      else y

/-- Run a sequence of combined-system events. -/
def sysRun : List SysEv → Sys → Sys
  | [], y => y
  | e :: evs, y => sysRun evs (sysStep e y)

/-- The frontend counters never exceed the backend ones (established by
every reachable state; `refreshStatus` copies, `disconnect` resets to 0). -/
def counterInv (y : Sys) : Prop :=
  y.front.appState.requests_proxied ≤ y.backend.requests ∧
    y.front.appState.beatmaps_downloaded ≤ y.backend.beatmaps

/-! ## The Bancho stream splicer

Modelled from the spec: the splicer lives in the Rust proxy core, which is
not among the frontend sources; §4.6 defines it as a pure state machine on
the server→client byte stream.  Bytes are `Nat`s below 256; scalars are
little-endian (§3 BanchoPacketHeader: `u16 id | u8 compressionFlag | u32
length`; the `UserPrivileges` packet has id 71 and a 4-byte little-endian
`u32` payload). -/

/-- Little-endian bytes of a `u16`. -/
def le16 (n : Nat) : List Nat := [n % 256, n / 256 % 256]

/-- Little-endian bytes of a `u32`. -/
def le32 (n : Nat) : List Nat :=
  [n % 256, n / 256 % 256, n / 65536 % 256, n / 16777216 % 256]

/-- Decode exactly four little-endian bytes as a `u32` (0 otherwise). -/
def dec32l : List Nat → Nat
  | [c0, c1, c2, c3] => c0 + 256 * c1 + 65536 * c2 + 16777216 * c3
  | _ => 0

/-- Modelled from the spec: the splicer parser phase (§4.6):
accumulating a 7-byte header, accumulating the 4-byte `UserPrivileges`
payload, forwarding a byte budget, or permanently passing through after a
malformed (`> 1 MiB`) `UserPrivileges` length. -/
inductive Phase where
  | header (acc : List Nat)
  | payload (hdr : List Nat) (acc : List Nat)
  | passThrough (budget : Nat)
  | abandoned
deriving DecidableEq, Repr

/-- Modelled from the spec: one byte of the splicer state machine (§4.6).
In `header`, accumulate to 7 bytes then decode `id`/`length`; a
`UserPrivileges` length above 1 MiB abandons inspection; id 71 with length
4 (and supporter injection on) enters `payload`; otherwise the header is
re-emitted and `length` bytes are passed through.  In `payload`,
accumulate 4 bytes, OR the mask with `0x04`, re-emit header plus modified
payload.  In `passThrough`, forward each byte, counting the budget down. -/
def spliceByte (inject : Bool) (p : Phase) (b : Nat) : Phase × List Nat :=
  match p with
  | .header acc =>
    match acc ++ [b] with
    | [b0, b1, b2, b3, b4, b5, b6] =>
      let pid := b0 + 256 * b1
      let len := b3 + 256 * b4 + 65536 * b5 + 16777216 * b6
      if pid = 71 ∧ 1048576 < len then (.abandoned, [b0, b1, b2, b3, b4, b5, b6])
      else if pid = 71 ∧ len = 4 ∧ inject then (.payload [b0, b1, b2, b3, b4, b5, b6] [], [])
      else if len = 0 then (.header [], [b0, b1, b2, b3, b4, b5, b6])
      else (.passThrough len, [b0, b1, b2, b3, b4, b5, b6])
    | acc' => (.header acc', [])
  | .payload hdr acc =>
    match acc ++ [b] with
    | [c0, c1, c2, c3] =>
      let oldMask := c0 + 256 * c1 + 65536 * c2 + 16777216 * c3
      (.header [], hdr ++ le32 (oldMask ||| 4))
    | acc' => (.payload hdr acc', [])
  | .passThrough budget =>
    if budget ≤ 1 then (.header [], [b]) else (.passThrough (budget - 1), [b])
  | .abandoned => (.abandoned, [b])

/-- Feed a byte list through the splicer from phase `p`. -/
def spliceRun (inject : Bool) : Phase → List Nat → Phase × List Nat
  | p, [] => (p, [])
  | p, b :: rest =>
      let s1 := spliceByte inject p b
      let s2 := spliceRun inject s1.1 rest
      (s2.1, s1.2 ++ s2.2)

/-- The splicer on a whole server→client stream. -/
def splicer (inject : Bool) (stream : List Nat) : List Nat :=
  (spliceRun inject (.header []) stream).2

/-- Feed a fragmentation schedule (list of TCP segments) through the
splicer. -/
def spliceChunks (inject : Bool) : Phase → List (List Nat) → Phase × List Nat
  | p, [] => (p, [])
  | p, c :: cs =>
      let s1 := spliceRun inject p c
      let s2 := spliceChunks inject s1.1 cs
      (s2.1, s1.2 ++ s2.2)

/-- The splicer fed segment by segment from the initial phase. -/
def splicerChunked (inject : Bool) (cs : List (List Nat)) : List Nat :=
  (spliceChunks inject (.header []) cs).2

/-- A Bancho packet (§3): id, compression flag, payload. -/
structure Packet where
  id : Nat
  flag : Nat
  payload : List Nat
deriving DecidableEq, Repr

/-- The 7-byte wire header of a packet. -/
def encodeHeader (p : Packet) : List Nat :=
  le16 p.id ++ [p.flag] ++ le32 p.payload.length

/-- The wire bytes of a packet: header followed by payload. -/
def encode (p : Packet) : List Nat := encodeHeader p ++ p.payload

/-- The wire bytes of a packet stream. -/
def encodeStream (ps : List Packet) : List Nat := (ps.map encode).flatten

/-- Well-formed packet: fields in range, payload of bytes, and — since the
spec treats a `UserPrivileges` payload above 1 MiB as malformed — id 71
payloads at most 1 MiB. -/
def WF (p : Packet) : Prop :=
  p.id < 65536 ∧ p.flag < 256 ∧ (∀ b ∈ p.payload, b < 256) ∧
    p.payload.length < 4294967296 ∧ (p.id = 71 → p.payload.length ≤ 1048576)

instance (p : Packet) : Decidable (WF p) := by
  unfold WF; infer_instance

/-- The per-packet effect of the splicer: a `UserPrivileges` packet with a
4-byte payload gets its mask ORed with `0x04` (when injection is on);
every other packet is untouched. -/
def mutate (inject : Bool) (p : Packet) : Packet :=
  if p.id = 71 ∧ p.payload.length = 4 ∧ inject then
    { p with payload := le32 (dec32l p.payload ||| 4) }
  else p

/-! ## Concrete states used to instantiate the theorems -/

/-- A store whose status is `connected` (configuration and counters at
their defaults). -/
def connectedStore : Store :=
  { config := defaultConfig
    appState := { defaultState with status := .connected }
    logs := []
    isLoading := false }

/-- A freshly started system: zero backend counters and a disconnected
store that knows an osu! path (so `connect()` is possible). -/
def freshSys : Sys :=
  { backend := { requests := 0, beatmaps := 0, banchoInjected := 0 }
    front :=
      { config := { defaultConfig with osu_path := some "C:/osu" }
        appState := defaultState
        logs := []
        isLoading := false } }

/-- A run that connects, proxies one request, refreshes the displayed
counters, and then disconnects. -/
def counterRunPrefix : List SysEv :=
  [.connectEv true "", .incRequests, .refreshStatusEv true .connected false none]

end RaiConnect

namespace RaiConnect

theorem spliceRun_append (inject : Bool) (p : Phase) (xs ys : List Nat) :
    spliceRun inject p (xs ++ ys) =
      ((spliceRun inject (spliceRun inject p xs).1 ys).1,
       (spliceRun inject p xs).2 ++ (spliceRun inject (spliceRun inject p xs).1 ys).2) := by
  induction xs generalizing p with
  | nil => simp [spliceRun]
  | cons b xs ih => simp [spliceRun, ih]

theorem spliceChunks_flatten (inject : Bool) (p : Phase) (cs : List (List Nat)) :
    spliceChunks inject p cs = spliceRun inject p cs.flatten := by
  induction cs generalizing p with
  | nil => simp [spliceChunks, spliceRun]
  | cons c cs ih => simp [spliceChunks, spliceRun_append, ih]

theorem spliceRun_passThrough (inject : Bool) (xs rest : List Nat) (hx : 0 < xs.length) :
    spliceRun inject (.passThrough xs.length) (xs ++ rest) =
      ((spliceRun inject (.header []) rest).1,
       xs ++ (spliceRun inject (.header []) rest).2) := by
  induction xs with
  | nil => simp at hx
  | cons b xs ih =>
    cases xs with
    | nil => simp [spliceRun, spliceByte]
    | cons b2 xs2 =>
      have h2 : 0 < (b2 :: xs2).length := by simp
      have hb : ¬ ((b :: b2 :: xs2).length ≤ 1) := by simp
      have hs1 : spliceByte inject (.passThrough (b :: b2 :: xs2).length) b
          = (.passThrough (b2 :: xs2).length, [b]) := by
        simp only [spliceByte, if_neg hb]
        simp
      have hstep : spliceRun inject (.passThrough (b :: b2 :: xs2).length) ((b :: b2 :: xs2) ++ rest)
          = ((spliceRun inject (.passThrough (b2 :: xs2).length) ((b2 :: xs2) ++ rest)).1,
             [b] ++ (spliceRun inject (.passThrough (b2 :: xs2).length) ((b2 :: xs2) ++ rest)).2) := by
        conv_lhs => rw [List.cons_append, spliceRun]
        rw [hs1]
      rw [hstep, ih h2]
      simp

end RaiConnect

namespace RaiConnect

theorem spliceRun_seven (inject : Bool) (i0 i1 fl l0 l1 l2 l3 : Nat) (tail : List Nat) :
    spliceRun inject (.header []) (i0 :: i1 :: fl :: l0 :: l1 :: l2 :: l3 :: tail) =
      ((spliceRun inject (spliceByte inject (.header [i0, i1, fl, l0, l1, l2]) l3).1 tail).1,
        (spliceByte inject (.header [i0, i1, fl, l0, l1, l2]) l3).2 ++
          (spliceRun inject (spliceByte inject (.header [i0, i1, fl, l0, l1, l2]) l3).1 tail).2) := by
  conv_lhs => rw [spliceRun]; rw [spliceRun]; rw [spliceRun]; rw [spliceRun]; rw [spliceRun]; rw [spliceRun]; rw [spliceRun]
  simp only [spliceByte]
  simp

end RaiConnect

namespace RaiConnect

theorem exists_len4 {α : Type} (l : List α) (h : l.length = 4) : ∃ a b c d, l = [a, b, c, d] := by
  match l, h with
  | [a, b, c, d], _ => exact ⟨a, b, c, d, rfl⟩

theorem spliceRun_payload4 (inject : Bool) (hdr : List Nat) (c0 c1 c2 c3 : Nat) (rest : List Nat) :
    spliceRun inject (.payload hdr []) (c0 :: c1 :: c2 :: c3 :: rest) =
      ((spliceRun inject (.header []) rest).1,
       (hdr ++ le32 ((c0 + 256 * c1 + 65536 * c2 + 16777216 * c3) ||| 4)) ++
         (spliceRun inject (.header []) rest).2) := by
  conv_lhs => rw [spliceRun]; rw [spliceRun]; rw [spliceRun]; rw [spliceRun]
  simp only [spliceByte]
  simp

theorem spliceRun_packet (inject : Bool) (p : Packet) (hwf : WF p) (rest : List Nat) :
    spliceRun inject (.header []) (encode p ++ rest) =
      ((spliceRun inject (.header []) rest).1,
       encode (mutate inject p) ++ (spliceRun inject (.header []) rest).2) := by
  obtain ⟨hid16, hfl, hbytes, hlen32, h71⟩ := hwf
  have hid : p.id % 256 + 256 * (p.id / 256 % 256) = p.id := by omega
  have hlen : p.payload.length % 256 + 256 * (p.payload.length / 256 % 256)
      + 65536 * (p.payload.length / 65536 % 256)
      + 16777216 * (p.payload.length / 16777216 % 256) = p.payload.length := by omega
  have hshape : encode p ++ rest
      = (p.id % 256) :: (p.id / 256 % 256) :: p.flag :: (p.payload.length % 256) ::
        (p.payload.length / 256 % 256) :: (p.payload.length / 65536 % 256) ::
        (p.payload.length / 16777216 % 256) :: (p.payload ++ rest) := by
    simp [encode, encodeHeader, le16, le32]
  have hsb : spliceByte inject (.header [p.id % 256, p.id / 256 % 256, p.flag,
        p.payload.length % 256, p.payload.length / 256 % 256, p.payload.length / 65536 % 256])
        (p.payload.length / 16777216 % 256)
      = (if p.id = 71 ∧ 1048576 < p.payload.length then
          (.abandoned, encodeHeader p)
        else if p.id = 71 ∧ p.payload.length = 4 ∧ inject then
          (.payload (encodeHeader p) [], [])
        else if p.payload.length = 0 then (.header [], encodeHeader p)
        else (.passThrough p.payload.length, encodeHeader p)) := by
    simp only [spliceByte, List.cons_append, List.nil_append]
    rw [hid, hlen]
    simp [encodeHeader, le16, le32]
  rw [hshape, spliceRun_seven, hsb]
  have hnotbig : ¬ (p.id = 71 ∧ 1048576 < p.payload.length) := by
    rintro ⟨ha, hb⟩
    have := h71 ha
    omega
  rw [if_neg hnotbig]
  by_cases htgt : p.id = 71 ∧ p.payload.length = 4 ∧ inject = true
  · rw [if_pos htgt]
    dsimp only
    obtain ⟨c0, c1, c2, c3, hp4⟩ := exists_len4 p.payload htgt.2.1
    have hmut : mutate inject p = { p with payload := le32 (dec32l p.payload ||| 4) } := by
      rw [mutate, if_pos htgt]
    rw [hp4, hmut]
    simp only [List.cons_append, List.nil_append]
    rw [spliceRun_payload4]
    simp [encode, encodeHeader, le16, le32, dec32l, hp4, htgt.2.1]
  · rw [if_neg htgt]
    have hmut : mutate inject p = p := by
      rw [mutate, if_neg htgt]
    rw [hmut]
    by_cases hz : p.payload.length = 0
    · rw [if_pos hz]
      have hp0 : p.payload = [] := List.length_eq_zero.mp hz
      simp [hp0, spliceRun, encode, encodeHeader, hz]
    · rw [if_neg hz]
      have hpos : 0 < p.payload.length := Nat.pos_of_ne_zero hz
      rw [spliceRun_passThrough inject p.payload rest hpos]
      simp [encode]

end RaiConnect

namespace RaiConnect

theorem spliceRun_stream (inject : Bool) (ps : List Packet) (h : ∀ p ∈ ps, WF p) :
    spliceRun inject (.header []) (encodeStream ps)
      = (.header [], encodeStream (ps.map (mutate inject))) := by
  induction ps with
  | nil => simp [encodeStream, spliceRun]
  | cons p ps ih =>
    have hshape : encodeStream (p :: ps) = encode p ++ encodeStream ps := by
      simp [encodeStream]
    rw [hshape, spliceRun_packet inject p (h p (by simp)) (encodeStream ps),
      ih (fun q hq => h q (by simp [hq]))]
    simp [encodeStream]

theorem splicer_stream (inject : Bool) (ps : List Packet) (h : ∀ p ∈ ps, WF p) :
    splicer inject (encodeStream ps) = encodeStream (ps.map (mutate inject)) := by
  rw [splicer, spliceRun_stream inject ps h]

theorem dec32l_lt (c0 c1 c2 c3 : Nat) (h0 : c0 < 256) (h1 : c1 < 256) (h2 : c2 < 256)
    (h3 : c3 < 256) : dec32l [c0, c1, c2, c3] < 4294967296 := by
  simp only [dec32l]
  omega

theorem WF_mutate (inject : Bool) (p : Packet) (h : WF p) : WF (mutate inject p) := by
  rw [mutate]
  split
  · obtain ⟨h1, h2, h3, h4, h5⟩ := h
    refine ⟨h1, h2, ?_, ?_, ?_⟩
    · intro b hb
      simp only [le32, List.mem_cons, List.not_mem_nil, or_false] at hb
      rcases hb with rfl | rfl | rfl | rfl <;> omega
    · simp [le32]
    · intro _
      simp [le32]
  · exact h

theorem dec32l_le32 (n : Nat) : dec32l (le32 n) = n % 4294967296 := by
  simp only [le32, dec32l]
  omega

theorem mutate_idem (inject : Bool) (p : Packet) (h : WF p) :
    mutate inject (mutate inject p) = mutate inject p := by
  by_cases htgt : p.id = 71 ∧ p.payload.length = 4 ∧ inject = true
  · obtain ⟨c0, c1, c2, c3, hp4⟩ := exists_len4 p.payload htgt.2.1
    have hm1 : mutate inject p = { p with payload := le32 (dec32l p.payload ||| 4) } := by
      rw [mutate, if_pos htgt]
    have hlt : dec32l p.payload < 4294967296 := by
      rw [hp4]
      obtain ⟨-, -, h3, -, -⟩ := h
      refine dec32l_lt c0 c1 c2 c3 ?_ ?_ ?_ ?_ <;>
        exact h3 _ (by rw [hp4]; simp)
    have hor : dec32l p.payload ||| 4 < 4294967296 := by
      have h32 : (4294967296 : Nat) = 2 ^ 32 := by norm_num
      rw [h32] at hlt ⊢
      exact Nat.or_lt_two_pow hlt (by norm_num)
    have htgt2 : (mutate inject p).id = 71 ∧ (mutate inject p).payload.length = 4 ∧
        inject = true := by
      rw [hm1]
      exact ⟨htgt.1, by simp [le32], htgt.2.2⟩
    rw [mutate, if_pos htgt2, hm1]
    have hdec : dec32l (le32 (dec32l p.payload ||| 4)) = dec32l p.payload ||| 4 := by
      rw [dec32l_le32, Nat.mod_eq_of_lt hor]
    simp only [hdec]
    rw [Nat.or_assoc]
    norm_num
  · have hm1 : mutate inject p = p := by rw [mutate, if_neg htgt]
    rw [hm1, hm1]

end RaiConnect

namespace RaiConnect

/-! ## Helper facts about the store actions -/

theorem connect_of_not_can (ok : Bool) (err : String) (s : Store) (h : ¬ canConnect s) :
    connect ok err s = s := by
  rw [connect, if_neg h]

theorem connect_status_of_can (ok : Bool) (err : String) (s : Store) (h : canConnect s) :
    (connect ok err s).appState.status
      = (if ok then ConnectionStatus.connected else .error) := by
  rw [connect, if_pos h]
  cases ok <;> rfl

theorem connect_counters (ok : Bool) (err : String) (s : Store) :
    (connect ok err s).appState.requests_proxied = s.appState.requests_proxied ∧
    (connect ok err s).appState.beatmaps_downloaded = s.appState.beatmaps_downloaded := by
  rw [connect]
  split
  · cases ok <;> exact ⟨rfl, rfl⟩
  · exact ⟨rfl, rfl⟩

theorem startProxy_of_guard (ok : Bool) (err : String) (s : Store)
    (h : s.appState.status = .connected ∨ s.appState.status = .connecting) :
    startProxy ok err s = s := by
  rw [startProxy, if_pos h]

theorem startProxy_status_of_not_guard (ok : Bool) (err : String) (s : Store)
    (h : ¬ (s.appState.status = .connected ∨ s.appState.status = .connecting)) :
    (startProxy ok err s).appState.status
      = (if ok then ConnectionStatus.connected else .error) := by
  rw [startProxy, if_neg h]
  cases ok <;> rfl

theorem startProxy_counters (ok : Bool) (err : String) (s : Store) :
    (startProxy ok err s).appState.requests_proxied = s.appState.requests_proxied ∧
    (startProxy ok err s).appState.beatmaps_downloaded = s.appState.beatmaps_downloaded := by
  rw [startProxy]
  split
  · exact ⟨rfl, rfl⟩
  · cases ok <;> exact ⟨rfl, rfl⟩

theorem disconnect_of_not_connected (ok : Bool) (err : String) (s : Store)
    (h : ¬ s.appState.status = .connected) : disconnect ok err s = s := by
  rw [disconnect, if_neg h]

theorem disconnect_true_of_connected (err : String) (s : Store)
    (h : s.appState.status = .connected) :
    disconnect true err s =
      { s with
          isLoading := false
          appState :=
            { s.appState with
                status := .disconnected
                requests_proxied := 0
                beatmaps_downloaded := 0 } } := by
  rw [disconnect, if_pos h]
  rfl

theorem disconnect_false_of_connected (err : String) (s : Store)
    (h : s.appState.status = .connected) :
    disconnect false err s =
      { s with
          isLoading := false
          appState := { s.appState with last_error := some err } } := by
  rw [disconnect, if_pos h]
  rfl

end RaiConnect

namespace RaiConnect

/-! ## Claim theorems -/

/-- C5 (counterexample): the claim "a freshly constructed default
`ProxyConfig` has its port field equal to 443" is false — the only port
field of the code's `ProxyConfig` is `http_port` and `defaultConfig` sets
it to 80, not 443. -/
theorem defaultConfig_port_ne_443 : defaultConfig.proxy.http_port ≠ 443 := by
  decide

/-- C5 (amended): the default value of the proxy port in the
configuration (`defaultConfig.proxy.http_port`) is 80. -/
theorem defaultConfig_port_eq_80 : defaultConfig.proxy.http_port = 80 := rfl

/-- C6 (counterexample): the UI's backend surface is not the spec's six
operations — `detect_osu` is invoked by the store but is none of `start`,
`stop`, `status`, `getCounters`, `getLogs`, `clearLogs`, and the `getLogs`
invocation passes a `count` argument, not `since`. -/
theorem controlApi_not_six_ops :
    "detect_osu" ∈ storeInvokedCommands ∧ "detect_osu" ∉ specControlOps ∧
      getLogsArgName ≠ "since" := by
  decide

/-- C6 (amended): the control surface the UI consumes consists of exactly
the eleven Tauri commands `load_saved_config`, `set_config`, `detect_osu`,
`validate_osu_path`, `start_proxy`, `connect`, `disconnect`, `get_status`,
`is_osu_running_cmd`, `get_logs`, `clear_logs` (pairwise distinct; none of
the spec's six operation names appears among them), and `get_logs` takes a
`count` parameter. -/
theorem controlApi_surface :
    storeInvokedCommands.length = 11 ∧ storeInvokedCommands.Nodup ∧
      (∀ c ∈ specControlOps, c ∉ storeInvokedCommands) ∧
      getLogsArgName = "count" := by
  decide

/-- C8: `connect()` is a guarded no-op — when the store is connected,
connecting, or has no configured osu! path, the call invokes no backend
command and leaves the whole store (config, appState, logs, isLoading)
unchanged. -/
theorem connect_guarded_noop (s : Store) (ok : Bool) (err : String)
    (h : s.appState.status = .connected ∨ s.appState.status = .connecting ∨
      s.config.osu_path = none) :
    connect ok err s = s ∧ connectCmds s = [] := by
  have hnc : ¬ canConnect s := by
    rintro ⟨h1, h2, h3⟩
    rcases h with h | h | h <;> contradiction
  exact ⟨connect_of_not_can ok err s hnc, by rw [connectCmds, if_neg hnc]⟩

/-- C8 (witness): instantiated at a connected store. -/
theorem connect_guarded_noop_witness :
    connect true "" connectedStore = connectedStore ∧ connectCmds connectedStore = [] :=
  connect_guarded_noop connectedStore true "" (Or.inl rfl)

/-- C10: `disconnect()` is atomic on error — from a connected store, a
failing backend invocation leaves the status `connected` and both counters
untouched while recording the failure in `last_error`; only a successful
invocation sets the status to `disconnected` and resets the two counters
to 0; in both cases `isLoading` is false afterwards. -/
theorem disconnect_atomic (s : Store) (err : String)
    (h : s.appState.status = .connected) :
    ((disconnect false err s).appState.status = .connected ∧
     (disconnect false err s).appState.requests_proxied = s.appState.requests_proxied ∧
     (disconnect false err s).appState.beatmaps_downloaded = s.appState.beatmaps_downloaded ∧
     (disconnect false err s).appState.last_error = some err ∧
     (disconnect false err s).isLoading = false) ∧
    ((disconnect true err s).appState.status = .disconnected ∧
     (disconnect true err s).appState.requests_proxied = 0 ∧
     (disconnect true err s).appState.beatmaps_downloaded = 0 ∧
     (disconnect true err s).isLoading = false) := by
  rw [disconnect_false_of_connected err s h, disconnect_true_of_connected err s h]
  exact ⟨⟨h, rfl, rfl, rfl, rfl⟩, rfl, rfl, rfl, rfl⟩

/-- C10 (witness): instantiated at a connected store and the failure
string "boom". -/
theorem disconnect_atomic_witness :
    ((disconnect false "boom" connectedStore).appState.status = .connected ∧
     (disconnect false "boom" connectedStore).appState.last_error = some "boom") ∧
    ((disconnect true "boom" connectedStore).appState.status = .disconnected ∧
     (disconnect true "boom" connectedStore).appState.requests_proxied = 0) := by
  have h := disconnect_atomic connectedStore "boom" rfl
  exact ⟨⟨h.1.1, h.1.2.2.2.1⟩, h.2.1, h.2.2.1⟩

end RaiConnect

namespace RaiConnect

/-- C9: `saveConfig` is atomic on error and `updateConfig` is key-local —
a failing `set_config` invocation leaves the store untouched and rethrows;
a successful one replaces `store.config` with the new configuration; and
the configuration `updateConfig(key, value)` submits agrees with the
previous one on every field other than `key`. -/
theorem saveConfig_atomic_updateConfig_keyLocal (s : Store) (cfg : AppConfig)
    (u : ConfigUpdate) :
    saveConfig false cfg s = (s, true) ∧
    (saveConfig true cfg s).1.config = cfg ∧ (saveConfig true cfg s).2 = false ∧
    (updateConfig true u s).1.config = applyUpdate u s.config ∧
    (∀ k, k ≠ keyOf u → fieldEq k s.config (applyUpdate u s.config)) := by
  refine ⟨rfl, rfl, rfl, rfl, ?_⟩
  intro k hk
  cases u <;> cases k <;> simp_all [keyOf, fieldEq, applyUpdate]

/-- C9 (witness): instantiated at the initial store, updating
`debug_logging`; the `osu_path` field is untouched. -/
theorem saveConfig_atomic_updateConfig_keyLocal_witness :
    saveConfig false defaultConfig initialStore = (initialStore, true) ∧
    fieldEq .osuPath initialStore.config
      (applyUpdate (.debugLogging true) initialStore.config) := by
  have h := saveConfig_atomic_updateConfig_keyLocal initialStore defaultConfig
    (.debugLogging true)
  exact ⟨h.1, h.2.2.2.2 .osuPath (by decide)⟩

end RaiConnect

namespace RaiConnect

/-- C2: for every `UserPrivileges` packet (id 71, 4-byte little-endian
payload) in a well-formed server→client stream, the splicer re-emits the
stream with that payload replaced by `mask ||| 0x04` and nothing else: the
new mask has bit 2 set, every bit set in the input mask remains set, and
no other bit changes. -/
theorem splicer_injects_supporter (ps : List Packet) (h : ∀ p ∈ ps, WF p) :
    splicer true (encodeStream ps) = encodeStream (ps.map (mutate true)) ∧
    ∀ p ∈ ps, p.id = 71 → p.payload.length = 4 →
      (mutate true p).payload = le32 (dec32l p.payload ||| 4) ∧
      Nat.testBit (dec32l p.payload ||| 4) 2 = true ∧
      (∀ i, Nat.testBit (dec32l p.payload) i = true →
        Nat.testBit (dec32l p.payload ||| 4) i = true) ∧
      (∀ i, i ≠ 2 →
        Nat.testBit (dec32l p.payload ||| 4) i = Nat.testBit (dec32l p.payload) i) := by
  refine ⟨splicer_stream true ps h, ?_⟩
  intro p _ h71 h4
  have hfour : ∀ i, i ≠ 2 → Nat.testBit 4 i = false := by
    intro i hi
    have h2 : (4 : Nat) = 2 ^ 2 := by norm_num
    rw [h2, Nat.testBit_two_pow_of_ne (Ne.symm hi)]
  refine ⟨?_, ?_, ?_, ?_⟩
  · rw [mutate, if_pos ⟨h71, h4, rfl⟩]
  · rw [Nat.testBit_or]
    have : Nat.testBit 4 2 = true := by decide
    rw [this, Bool.or_true]
  · intro i hi
    rw [Nat.testBit_or, hi, Bool.true_or]
  · intro i hi
    rw [Nat.testBit_or, hfour i hi, Bool.or_false]

/-- C2 (witness): the spec's literal example — a `UserPrivileges` packet
with payload `01 00 00 00` comes out with payload `05 00 00 00`. -/
theorem splicer_injects_supporter_witness :
    splicer true [71, 0, 0, 4, 0, 0, 0, 1, 0, 0, 0]
      = [71, 0, 0, 4, 0, 0, 0, 5, 0, 0, 0] := by
  have h := (splicer_injects_supporter [⟨71, 0, [1, 0, 0, 0]⟩] (by decide)).1
  exact h

/-- C3: splicer byte-equivalence — on a well-formed stream none of whose
packet ids is 71 the splicer's output equals its input byte for byte; in
general the output is the input stream with only the 4-byte payloads of
`UserPrivileges` packets rewritten (every other packet is untouched by
`mutate`). -/
theorem splicer_byte_equivalence (ps : List Packet) (h : ∀ p ∈ ps, WF p) :
    ((∀ p ∈ ps, p.id ≠ 71) → splicer true (encodeStream ps) = encodeStream ps) ∧
    splicer true (encodeStream ps) = encodeStream (ps.map (mutate true)) ∧
    (∀ p ∈ ps, ¬ (p.id = 71 ∧ p.payload.length = 4) → mutate true p = p) := by
  have hmut : ∀ p ∈ ps, ¬ (p.id = 71 ∧ p.payload.length = 4) → mutate true p = p := by
    intro p _ hp
    rw [mutate, if_neg]
    rintro ⟨ha, hb, -⟩
    exact hp ⟨ha, hb⟩
  refine ⟨?_, splicer_stream true ps h, hmut⟩
  intro hne
  rw [splicer_stream true ps h]
  have hself : ps.map (mutate true) = ps := by
    conv_rhs => rw [show ps = ps.map id from (List.map_id ps).symm]
    apply List.map_congr_left
    intro p hp
    exact hmut p hp (fun hc => hne p hp hc.1)
  rw [hself]

/-- C3 (witness): the spec's literal example — the non-target packet
`18 00 00 02 00 00 00 AA BB` (id 24) is emitted byte-identical. -/
theorem splicer_byte_equivalence_witness :
    splicer true [24, 0, 0, 2, 0, 0, 0, 170, 187]
      = [24, 0, 0, 2, 0, 0, 0, 170, 187] := by
  have h := (splicer_byte_equivalence [⟨24, 0, [170, 187]⟩] (by decide)).1 (by decide)
  exact h

/-- C4: splicer idempotence — for every well-formed packet stream and
every TCP fragmentation schedule of its bytes, feeding the fragments
through the splicer gives the same output as splicing the whole stream,
and applying the splicer a second time to that output changes nothing. -/
theorem splicer_idempotent (ps : List Packet) (h : ∀ p ∈ ps, WF p)
    (cs : List (List Nat)) (hcs : cs.flatten = encodeStream ps) :
    splicerChunked true cs = splicer true (encodeStream ps) ∧
    splicer true (splicerChunked true cs) = splicerChunked true cs := by
  have hc : splicerChunked true cs = splicer true (encodeStream ps) := by
    rw [splicerChunked, spliceChunks_flatten, hcs, splicer]
  refine ⟨hc, ?_⟩
  rw [hc, splicer_stream true ps h]
  have hwf2 : ∀ q ∈ ps.map (mutate true), WF q := by
    intro q hq
    obtain ⟨r, hr, rfl⟩ := List.mem_map.mp hq
    exact WF_mutate true r (h r hr)
  rw [splicer_stream true (ps.map (mutate true)) hwf2, List.map_map]
  congr 1
  apply List.map_congr_left
  intro q hq
  exact mutate_idem true q (h q hq)

/-- C4 (witness): a `UserPrivileges` stream cut into three TCP segments —
splicing the spliced output reproduces it. -/
theorem splicer_idempotent_witness :
    splicer true (splicerChunked true [[71, 0, 0], [4, 0, 0, 0, 1], [0, 0, 0]])
      = splicerChunked true [[71, 0, 0], [4, 0, 0, 0, 1], [0, 0, 0]] := by
  have h := (splicer_idempotent [⟨71, 0, [1, 0, 0, 0]⟩] (by decide)
    [[71, 0, 0], [4, 0, 0, 0, 1], [0, 0, 0]] (by decide)).2
  exact h

end RaiConnect

namespace RaiConnect

/-- C1 (counterexample): the counters exposed in the application state do
go down — after connecting, one proxied request and a status refresh the
store shows `requests_proxied = 1`, and the following successful
`disconnect` resets it to 0. -/
theorem counters_decrease_on_disconnect :
    (sysRun counterRunPrefix freshSys).front.appState.requests_proxied = 1 ∧
    (sysRun (counterRunPrefix ++ [.disconnectEv true ""]) freshSys).front.appState.requests_proxied
      = 0 := by
  constructor <;> rfl

/-- C1 (amended): the backend counters are monotone and the counters
exposed in the application state never decrease across any control-plane
step — except that a successful `disconnect` resets `requests_proxied`
and `beatmaps_downloaded` to 0. -/
theorem counters_monotone_except_disconnect_reset (y : Sys) (e : SysEv)
    (h : counterInv y) :
    counterInv (sysStep e y) ∧
    y.backend.requests ≤ (sysStep e y).backend.requests ∧
    y.backend.beatmaps ≤ (sysStep e y).backend.beatmaps ∧
    y.backend.banchoInjected ≤ (sysStep e y).backend.banchoInjected ∧
    ((y.front.appState.requests_proxied ≤ (sysStep e y).front.appState.requests_proxied ∧
      y.front.appState.beatmaps_downloaded ≤ (sysStep e y).front.appState.beatmaps_downloaded) ∨
     ((sysStep e y).front.appState.requests_proxied = 0 ∧
      (sysStep e y).front.appState.beatmaps_downloaded = 0 ∧
      ∃ err, e = .disconnectEv true err)) := by
  obtain ⟨hr, hb⟩ := h
  cases e with
  | incRequests =>
    exact ⟨⟨Nat.le_succ_of_le hr, hb⟩, Nat.le_succ _, le_refl _, le_refl _,
      Or.inl ⟨le_refl _, le_refl _⟩⟩
  | incBeatmaps =>
    exact ⟨⟨hr, Nat.le_succ_of_le hb⟩, le_refl _, Nat.le_succ _, le_refl _,
      Or.inl ⟨le_refl _, le_refl _⟩⟩
  | incInjected =>
    exact ⟨⟨hr, hb⟩, le_refl _, le_refl _, Nat.le_succ _,
      Or.inl ⟨le_refl _, le_refl _⟩⟩
  | connectEv ok err =>
    obtain ⟨hc1, hc2⟩ := connect_counters ok err y.front
    refine ⟨⟨?_, ?_⟩, le_refl _, le_refl _, le_refl _, Or.inl ⟨?_, ?_⟩⟩ <;>
      simp [sysStep, hc1, hc2, hr, hb]
  | startProxyEv ok err =>
    obtain ⟨hc1, hc2⟩ := startProxy_counters ok err y.front
    refine ⟨⟨?_, ?_⟩, le_refl _, le_refl _, le_refl _, Or.inl ⟨?_, ?_⟩⟩ <;>
      simp [sysStep, hc1, hc2, hr, hb]
  | disconnectEv ok err =>
    cases ok with
    | false =>
      by_cases hcon : y.front.appState.status = .connected
      · rw [sysStep, disconnect_false_of_connected err y.front hcon]
        exact ⟨⟨hr, hb⟩, le_refl _, le_refl _, le_refl _,
          Or.inl ⟨le_refl _, le_refl _⟩⟩
      · rw [sysStep, disconnect_of_not_connected false err y.front hcon]
        exact ⟨⟨hr, hb⟩, le_refl _, le_refl _, le_refl _,
          Or.inl ⟨le_refl _, le_refl _⟩⟩
    | true =>
      by_cases hcon : y.front.appState.status = .connected
      · rw [sysStep, disconnect_true_of_connected err y.front hcon]
        exact ⟨⟨Nat.zero_le _, Nat.zero_le _⟩, le_refl _, le_refl _, le_refl _,
          Or.inr ⟨rfl, rfl, err, rfl⟩⟩
      · rw [sysStep, disconnect_of_not_connected true err y.front hcon]
        exact ⟨⟨hr, hb⟩, le_refl _, le_refl _, le_refl _,
          Or.inl ⟨le_refl _, le_refl _⟩⟩
  | refreshStatusEv ok st run le =>
    cases ok with
    | false =>
      exact ⟨⟨hr, hb⟩, le_refl _, le_refl _, le_refl _,
        Or.inl ⟨le_refl _, le_refl _⟩⟩
    | true =>
      exact ⟨⟨le_refl _, le_refl _⟩, le_refl _, le_refl _, le_refl _,
        Or.inl ⟨hr, hb⟩⟩

/-- C1 (witness): the amended theorem instantiated at a fresh system with
a backend fetch-add step. -/
theorem counters_monotone_witness :
    counterInv (sysStep .incRequests freshSys) ∧
    freshSys.backend.requests ≤ (sysStep .incRequests freshSys).backend.requests := by
  have h := counters_monotone_except_disconnect_reset freshSys .incRequests
    (by constructor <;> decide)
  exact ⟨h.1, h.2.1⟩

end RaiConnect

namespace RaiConnect

theorem statusWrites_chain (evs : List CtlEv) (s : Store) :
    List.Chain' (stepAlong codeEdges) (s.appState.status :: statusWrites evs s) := by
  induction evs generalizing s with
  | nil => simp [statusWrites]
  | cons e evs ih =>
    rw [statusWrites]
    cases e with
    | connectEv ok err =>
      by_cases hc : canConnect s
      · have hs : (connect ok err s).appState.status
            = (if ok then ConnectionStatus.connected else .error) :=
          connect_status_of_can ok err s hc
        have htail := ih (connect ok err s)
        rw [hs] at htail
        simp only [ctlTrace, if_pos hc, runCtl, List.cons_append, List.nil_append]
        rw [List.chain'_cons, List.chain'_cons]
        refine ⟨?_, ?_, htail⟩
        · obtain ⟨h1, h2, -⟩ := hc
          cases hst : s.appState.status <;> simp_all [stepAlong, codeEdges]
        · cases ok <;> simp [stepAlong, codeEdges]
      · have hrun : connect ok err s = s := connect_of_not_can ok err s hc
        simp only [ctlTrace, if_neg hc, runCtl, hrun, List.nil_append]
        exact ih s
    | startProxyEv ok err =>
      by_cases hg : s.appState.status = .connected ∨ s.appState.status = .connecting
      · have hrun : startProxy ok err s = s := startProxy_of_guard ok err s hg
        simp only [ctlTrace, if_pos hg, runCtl, hrun, List.nil_append]
        exact ih s
      · have hs : (startProxy ok err s).appState.status
            = (if ok then ConnectionStatus.connected else .error) :=
          startProxy_status_of_not_guard ok err s hg
        have htail := ih (startProxy ok err s)
        rw [hs] at htail
        simp only [ctlTrace, if_neg hg, runCtl, List.cons_append, List.nil_append]
        rw [List.chain'_cons, List.chain'_cons]
        refine ⟨?_, ?_, htail⟩
        · push_neg at hg
          obtain ⟨h1, h2⟩ := hg
          cases hst : s.appState.status <;> simp_all [stepAlong, codeEdges]
        · cases ok <;> simp [stepAlong, codeEdges]
    | disconnectEv ok err =>
      by_cases hcon : s.appState.status = .connected
      · cases ok with
        | true =>
          have hrun := disconnect_true_of_connected err s hcon
          have htail := ih (disconnect true err s)
          have hs : (disconnect true err s).appState.status = .disconnected := by
            rw [hrun]
          rw [hs] at htail
          simp only [ctlTrace, if_pos hcon, runCtl, List.cons_append, List.nil_append,
            if_true, ite_true]
          rw [List.chain'_cons]
          refine ⟨?_, htail⟩
          rw [hcon]
          simp [stepAlong, codeEdges]
        | false =>
          have hrun := disconnect_false_of_connected err s hcon
          have htail := ih (disconnect false err s)
          have hs : (disconnect false err s).appState.status = s.appState.status := by
            rw [hrun]
          have hnil : ctlTrace (.disconnectEv false err) s = [] := by
            simp [ctlTrace, if_pos hcon]
          rw [hnil, runCtl, List.nil_append]
          rw [hs] at htail
          exact htail
      · have hrun : disconnect ok err s = s := disconnect_of_not_connected ok err s hcon
        have hnil : ctlTrace (.disconnectEv ok err) s = [] := by
          simp [ctlTrace, if_neg hcon]
        rw [hnil, runCtl, hrun, List.nil_append]
        exact ih s

/-- C7 (counterexample): the spec's lifecycle edges are violated — from a
connected store, a successful `disconnect()` moves the status directly
from `connected` (Running) to `disconnected` (Stopped), an edge the
claimed `Stopped → Starting → Running → Stopping → Stopped` graph does
not contain (there is no `Stopping` status in the code at all). -/
theorem lifecycle_violates_spec_edges :
    ¬ List.Chain' (stepAlong specEdges)
      (statusTraj [.disconnectEv true ""] connectedStore) := by
  intro h
  have htraj : statusTraj [.disconnectEv true ""] connectedStore
      = [.connected, .disconnected] := rfl
  rw [htraj] at h
  have hstep : stepAlong specEdges .connected .disconnected := (List.chain'_cons.mp h).1
  rcases hstep with h1 | h2
  · exact ConnectionStatus.noConfusion h1
  · simp [specEdges] at h2

/-- C7 (amended): across every sequence of `connect()`, `startProxy()` and
`disconnect()` calls the status field moves only along the edges
`disconnected → connecting`, `error → connecting`,
`connecting → connected`, `connecting → error` and
`connected → disconnected`, and the `error` status is only ever entered
from `connecting`. -/
theorem lifecycle_follows_code_edges (evs : List CtlEv) (s : Store) :
    List.Chain' (stepAlong codeEdges) (statusTraj evs s) ∧
    (∀ e ∈ codeEdges, e.2 = .error → e.1 = .connecting) := by
  exact ⟨statusWrites_chain evs s, by decide⟩

end RaiConnect
